import Mathlib

/-!
Shallow embedding of tls/s2n_client_key_exchange.c (ClientKeyExchange
handshake message handling: RSA and DHE key-exchange paths, server-side
receive and client-side send, plus the algorithm dispatchers).

Bytes are modelled as natural numbers; the handshake stuffer is a byte
list read from the front (receive side) or appended to (send side).
External collaborators (RSA decrypt/encrypt, DH computation, the PRF,
the random generator) are oracle parameters whose fallibility mirrors
the int-returning C collaborators guarded by GUARD.  Each routine
returns its return code, the updated connection, the bytes written to
the outgoing stuffer, and a trace of the externally visible actions it
performed, in order.
-/

/-- S2N_SSLv3 protocol version constant (30). -/
def S2N_SSLv3 : Nat := 30

/-- S2N_TLS_SECRET_LEN: the pre-master secret is 48 bytes. -/
def S2N_TLS_SECRET_LEN : Nat := 48

/-- S2N_TLS_PROTOCOL_VERSION_LEN: wire protocol versions are 2 bytes. -/
def S2N_TLS_PROTOCOL_VERSION_LEN : Nat := 2

/-- Key-exchange algorithm constant S2N_RSA. -/
def S2N_RSA : Nat := 0

/-- Key-exchange algorithm constant S2N_DHE. -/
def S2N_DHE : Nat := 1

/-- Errors surfaced through the GUARD / S2N_ERROR channel.  The first
three correspond to errors raised in this file; the rest stand for
error codes propagated from collaborator calls via GUARD. -/
inductive KexError where
  | badMessage
  | sizeMismatch
  | invalidKeyExchangeAlgorithm
  | stufferOutOfData
  | nullData
  | randomFailed
  | prfFailed
  | encryptFailed
  | dhFailed
deriving DecidableEq, Repr

/-- Handshake states relevant to this step. -/
inductive HsState where
  | clientKeyExchange
  | clientChangeCipherSpec
deriving DecidableEq, Repr

/-- Externally visible actions of one routine invocation, in order. -/
inductive Event where
  | readLen16 (len : Nat)
  | writeLen16 (len : Nat)
  | rsaDecrypt (ciphertext : List Nat)
  | substituteSecret
  | deriveMasterSecret (secret : List Nat)
  | zeroSecret
  | rsaEncrypt
  | freeRsaPublicKey
  | getRandom (n : Nat)
  | dhComputeShared
  | freeSharedSecret
  | freeDhParams
deriving DecidableEq, Repr

/-- The connection fields this translation unit reads or writes. -/
structure Conn where
  actual_protocol_version : Nat
  client_protocol_version : Nat
  rsa_premaster_secret : List Nat
  rsa_failed : Bool
  master_secret : Option (List Nat)
  next_state : HsState
  dh_params_freed : Bool
  rsa_public_key_freed : Bool
  key_exchange_alg : Nat
deriving DecidableEq, Repr

/-- Collaborator oracles (crypto/s2n_rsa.h, crypto/s2n_dhe.h,
utils/s2n_random.h, the PRF).  A fallible collaborator returns
an Option; GUARD maps a failure to the matching KexError. -/
structure Oracles where
  rsa_decrypt : List Nat → Int × List Nat
  rsa_encrypt : List Nat → Option (List Nat)
  rsa_public_encrypted_size : Int
  get_random_data : Nat → Option (List Nat)
  prf_master_secret : List Nat → Option (List Nat)
  dh_compute_shared_secret_as_server : List Nat → Option (List Nat)
  dh_compute_shared_secret_as_client : Option (List Nat × List Nat)

/-- Result of one routine invocation: return code, updated connection,
bytes appended to the outgoing stuffer, trace of actions. -/
structure RunResult where
  res : Except KexError Unit
  conn : Conn
  out : List Nat
  trace : List Event
deriving Repr

instance : DecidableEq (Except KexError Unit) := fun a b => by
  cases a <;> cases b <;> first
    | (apply isFalse; intro h; exact Except.noConfusion h)
    | (rename_i x y
       exact match decEq x y with
       | isTrue h => isTrue (by rw [h])
       | isFalse h => isFalse (by intro hc; cases hc; exact h rfl))

instance : DecidableEq RunResult := fun a b => by
  cases a; cases b
  rename_i r1 c1 o1 t1 r2 c2 o2 t2
  exact
    match decEq r1 r2, decEq c1 c2, decEq o1 o2, decEq t1 t2 with
    | isTrue h1, isTrue h2, isTrue h3, isTrue h4 => isTrue (by rw [h1, h2, h3, h4])
    | isFalse h1, _, _, _ => isFalse (by intro hc; cases hc; exact h1 rfl)
    | _, isFalse h2, _, _ => isFalse (by intro hc; cases hc; exact h2 rfl)
    | _, _, isFalse h3, _ => isFalse (by intro hc; cases hc; exact h3 rfl)
    | _, _, _, isFalse h4 => isFalse (by intro hc; cases hc; exact h4 rfl)

/-! ## Stuffer primitives (stuffer/s2n_stuffer.h collaborators) -/

/-- s2n_stuffer_data_available: bytes remaining to read. -/
def s2n_stuffer_data_available (s : List Nat) : Nat := s.length

/-- s2n_stuffer_read_uint16: read a big-endian 16-bit value; fails when
fewer than two bytes remain. -/
def s2n_stuffer_read_uint16 (s : List Nat) : Option (Nat × List Nat) :=
  match s with
  | a :: b :: rest => some (a * 256 + b, rest)
  | _ => none

/-- s2n_stuffer_raw_read: hand out a pointer to the next n bytes and
advance the cursor; returns NULL (none) when n exceeds the bytes
available. -/
def s2n_stuffer_raw_read (s : List Nat) (n : Nat) : Option (List Nat × List Nat) :=
  if n ≤ s.length then some (s.take n, s.drop n) else none

/-- s2n_stuffer_write_uint16: append a big-endian 16-bit value. -/
def s2n_stuffer_write_uint16 (out : List Nat) (v : Nat) : List Nat :=
  out ++ [v / 256 % 256, v % 256]

/-- Normalise a byte list to a fixed-size buffer of n bytes (a C array
of size n always holds exactly n bytes). -/
def padTo (n : Nat) (xs : List Nat) : List Nat :=
  (xs ++ List.replicate n 0).take n

/-- s2n_constant_time_equals: OR together the XOR of each byte pair over
a fixed iteration count and test the accumulator against zero. -/
def s2n_constant_time_equals (a b : List Nat) (len : Nat) : Bool :=
  ((List.range len).foldl (fun x i => x ||| (a.getD i 0 ^^^ b.getD i 0)) 0) == 0

/-- The client protocol version in wire format
(lines 48-49 and 150-151: major = version / 10, minor = version % 10). -/
def cpvBytes (conn : Conn) : List Nat :=
  [conn.client_protocol_version / 10, conn.client_protocol_version % 10]

/-- The substituted pre-master secret of the anti-Bleichenbacher branch
(lines 67-69): 48 fresh random bytes whose first two bytes are then
overwritten with the wire-format client version. -/
def rsaSubstituteSecret (conn : Conn) (r : List Nat) : List Nat :=
  (((padTo S2N_TLS_SECRET_LEN r).set 0 ((cpvBytes conn).getD 0 0)).set 1
    ((cpvBytes conn).getD 1 0))

/-! ## RSA receive path (lines 31-81) -/

/-- Length determination of s2n_rsa_client_key_recv (lines 37-41): for
SSLv3 the length is implicit (all bytes available); otherwise an
explicit big-endian 16-bit length is read first.  Returns the declared
length, the remaining input, and the prefix-read trace. -/
def rsaRecvParse (conn : Conn) (in_ : List Nat) :
    Except KexError (Nat × List Nat × List Event) :=
  if conn.actual_protocol_version = S2N_SSLv3 then
    .ok (s2n_stuffer_data_available in_, in_, [])
  else
    match s2n_stuffer_read_uint16 in_ with
    | none => .error .stufferOutOfData
    | some (len, rest) => .ok (len, rest, [.readLen16 len])

/-- Final steps shared by both RSA receive branches (lines 72-80):
derive the master secret from the current pre-master secret, zero the
secret, set the next handshake state, return 0. -/
def rsaRecvFinish (o : Oracles) (conn : Conn) (ev : List Event) : RunResult :=
  match o.prf_master_secret conn.rsa_premaster_secret with
  | none => ⟨.error .prfFailed, conn, [], ev⟩
  | some ms =>
    ⟨.ok (), { conn with
        master_secret := some ms,
        rsa_premaster_secret := List.replicate S2N_TLS_SECRET_LEN 0,
        next_state := .clientChangeCipherSpec }, [],
      ev ++ [.deriveMasterSecret conn.rsa_premaster_secret, .zeroSecret]⟩

/-- Decryption and substitution steps of s2n_rsa_client_key_recv
(lines 47-70), entered once the length bound has been checked.  Note
line 56: the blob handed to s2n_rsa_decrypt carries
size = s2n_stuffer_data_available(in), i.e. all remaining bytes. -/
def rsaRecvDecrypt (o : Oracles) (conn : Conn) (in₁ : List Nat) (ev₁ : List Event) :
    RunResult :=
  let client_protocol_version := cpvBytes conn
  let encrypted := in₁.take (s2n_stuffer_data_available in₁)
  let rc := (o.rsa_decrypt encrypted).1
  let pms0 := padTo S2N_TLS_SECRET_LEN (o.rsa_decrypt encrypted).2
  let failed := (!(rc == 0)) ||
    (!(s2n_constant_time_equals client_protocol_version pms0
        S2N_TLS_PROTOCOL_VERSION_LEN))
  let conn₁ := { conn with rsa_premaster_secret := pms0, rsa_failed := failed }
  let ev₂ := ev₁ ++ [Event.rsaDecrypt encrypted]
  if failed then
    match o.get_random_data S2N_TLS_SECRET_LEN with
    | none => ⟨.error .randomFailed, conn₁, [], ev₂⟩
    | some r =>
      rsaRecvFinish o
        { conn₁ with rsa_premaster_secret := rsaSubstituteSecret conn r }
        (ev₂ ++ [Event.substituteSecret])
  else
    rsaRecvFinish o conn₁ ev₂

/-- s2n_rsa_client_key_recv (lines 31-81). -/
def s2n_rsa_client_key_recv (o : Oracles) (conn : Conn) (in_ : List Nat) :
    RunResult :=
  match rsaRecvParse conn in_ with
  | .error e => ⟨.error e, conn, [], []⟩
  | .ok (length, in₁, ev₁) =>
    if length > s2n_stuffer_data_available in₁ then
      ⟨.error .badMessage, conn, [], ev₁⟩
    else
      match s2n_stuffer_raw_read in₁ length with
      | none => ⟨.error .nullData, conn, [], ev₁⟩
      | some _ => rsaRecvDecrypt o conn in₁ ev₁

/-! ## DHE receive path (lines 83-112) -/

/-- s2n_dhe_client_key_recv (lines 83-112). -/
def s2n_dhe_client_key_recv (o : Oracles) (conn : Conn) (in_ : List Nat) :
    RunResult :=
  match s2n_stuffer_read_uint16 in_ with
  | none => ⟨.error .stufferOutOfData, conn, [], []⟩
  | some (length, rest) =>
    match s2n_stuffer_raw_read rest length with
    | none => ⟨.error .nullData, conn, [], [.readLen16 length]⟩
    | some (Yc, _) =>
      match o.dh_compute_shared_secret_as_server Yc with
      | none => ⟨.error .dhFailed, conn, [], [.readLen16 length, .dhComputeShared]⟩
      | some shared =>
        match o.prf_master_secret shared with
        | none =>
          ⟨.error .prfFailed, conn, [],
            [.readLen16 length, .dhComputeShared, .deriveMasterSecret shared]⟩
        | some ms =>
          ⟨.ok (), { conn with
              master_secret := some ms,
              dh_params_freed := true,
              next_state := .clientChangeCipherSpec }, [],
            [.readLen16 length, .dhComputeShared, .deriveMasterSecret shared,
             .zeroSecret, .freeSharedSecret, .freeDhParams]⟩

/-! ## DHE send path (lines 125-145) -/

/-- s2n_dhe_client_key_send (lines 125-145).  The DH collaborator both
serialises this side's public value into the outgoing stuffer and
returns the shared secret. -/
def s2n_dhe_client_key_send (o : Oracles) (conn : Conn) (out : List Nat) :
    RunResult :=
  match o.dh_compute_shared_secret_as_client with
  | none => ⟨.error .dhFailed, conn, out, [.dhComputeShared]⟩
  | some (pub, shared) =>
    match o.prf_master_secret shared with
    | none =>
      ⟨.error .prfFailed, conn, out ++ pub,
        [.dhComputeShared, .deriveMasterSecret shared]⟩
    | some ms =>
      ⟨.ok (), { conn with
          master_secret := some ms,
          dh_params_freed := true,
          next_state := .clientChangeCipherSpec }, out ++ pub,
        [.dhComputeShared, .deriveMasterSecret shared, .zeroSecret,
         .freeSharedSecret, .freeDhParams]⟩

/-! ## RSA send path (lines 147-189) -/

/-- s2n_rsa_client_key_send (lines 147-189). -/
def s2n_rsa_client_key_send (o : Oracles) (conn : Conn) (out : List Nat) :
    RunResult :=
  let cpv := cpvBytes conn
  -- lines 150-153: write the wire version into the first two bytes of
  -- the 48-byte pre-master secret buffer
  let pms₁ := ((padTo S2N_TLS_SECRET_LEN conn.rsa_premaster_secret).set 0
      (cpv.getD 0 0)).set 1 (cpv.getD 1 0)
  match o.get_random_data (S2N_TLS_SECRET_LEN - S2N_TLS_PROTOCOL_VERSION_LEN) with
  | none =>
    ⟨.error .randomFailed, { conn with rsa_premaster_secret := pms₁ }, out,
      [.getRandom 46]⟩
  | some r =>
    let pms := pms₁.take S2N_TLS_PROTOCOL_VERSION_LEN ++
      padTo (S2N_TLS_SECRET_LEN - S2N_TLS_PROTOCOL_VERSION_LEN) r
    let conn₁ := { conn with rsa_premaster_secret := pms }
    let encrypted_size := o.rsa_public_encrypted_size
    if encrypted_size < 0 ∨ encrypted_size > 65535 then
      ⟨.error .sizeMismatch, conn₁, out, [.getRandom 46]⟩
    else
      let esN := encrypted_size.toNat
      let out₁ := if conn.actual_protocol_version > S2N_SSLv3 then
          s2n_stuffer_write_uint16 out esN
        else out
      let ev₁ := if conn.actual_protocol_version > S2N_SSLv3 then
          [Event.getRandom 46, Event.writeLen16 esN]
        else [Event.getRandom 46]
      -- line 170: raw_write reserves esN bytes of the growable stuffer;
      -- line 175: the ciphertext is encrypted into that region
      match o.rsa_encrypt pms with
      | none =>
        ⟨.error .encryptFailed, conn₁, out₁ ++ List.replicate esN 0,
          ev₁ ++ [.rsaEncrypt]⟩
      | some ct =>
        let out₂ := out₁ ++ padTo esN ct
        let conn₂ := { conn₁ with rsa_public_key_freed := true }
        match o.prf_master_secret pms with
        | none =>
          ⟨.error .prfFailed, conn₂, out₂,
            ev₁ ++ [.rsaEncrypt, .freeRsaPublicKey]⟩
        | some ms =>
          ⟨.ok (), { conn₂ with
              master_secret := some ms,
              rsa_premaster_secret := List.replicate S2N_TLS_SECRET_LEN 0,
              next_state := .clientChangeCipherSpec }, out₂,
            ev₁ ++ [.rsaEncrypt, .freeRsaPublicKey, .deriveMasterSecret pms,
              .zeroSecret]⟩

/-! ## Dispatchers (lines 114-123 and 191-200) -/

/-- s2n_client_key_recv (lines 114-123). -/
def s2n_client_key_recv (o : Oracles) (conn : Conn) (in_ : List Nat) : RunResult :=
  if conn.key_exchange_alg = S2N_RSA then s2n_rsa_client_key_recv o conn in_
  else if conn.key_exchange_alg = S2N_DHE then s2n_dhe_client_key_recv o conn in_
  else ⟨.error .invalidKeyExchangeAlgorithm, conn, [], []⟩

/-- s2n_client_key_send (lines 191-200). -/
def s2n_client_key_send (o : Oracles) (conn : Conn) (out : List Nat) : RunResult :=
  if conn.key_exchange_alg = S2N_RSA then s2n_rsa_client_key_send o conn out
  else if conn.key_exchange_alg = S2N_DHE then s2n_dhe_client_key_send o conn out
  else ⟨.error .invalidKeyExchangeAlgorithm, conn, out, []⟩

/-! ## Supporting lemmas -/

theorem nat_lor_eq_zero {m n : Nat} : m ||| n = 0 ↔ m = 0 ∧ n = 0 := by
  constructor
  · intro h
    constructor
    · apply Nat.zero_of_testBit_eq_false
      intro i
      have hb := congrArg (fun x => Nat.testBit x i) h
      simp only [Nat.testBit_lor, Nat.zero_testBit, Bool.or_eq_false_iff] at hb
      exact hb.1
    · apply Nat.zero_of_testBit_eq_false
      intro i
      have hb := congrArg (fun x => Nat.testBit x i) h
      simp only [Nat.testBit_lor, Nat.zero_testBit, Bool.or_eq_false_iff] at hb
      exact hb.2
  · rintro ⟨rfl, rfl⟩
    rfl

theorem constant_time_equals_two (a0 a1 b0 b1 : Nat) (tl : List Nat) :
    s2n_constant_time_equals [a0, a1] (b0 :: b1 :: tl) 2 = true ↔
      b0 = a0 ∧ b1 = a1 := by
  simp only [s2n_constant_time_equals, List.range, List.range.loop, List.foldl,
    List.getD, List.get?, beq_iff_eq]
  rw [Nat.zero_or, nat_lor_eq_zero, Nat.xor_eq_zero, Nat.xor_eq_zero]
  exact ⟨fun ⟨h1, h2⟩ => ⟨h1.symm, h2.symm⟩, fun ⟨h1, h2⟩ => ⟨h1.symm, h2.symm⟩⟩

theorem padTo_length (n : Nat) (xs : List Nat) : (padTo n xs).length = n := by
  simp [padTo]

theorem padTo_eq_self {n : Nat} {xs : List Nat} (h : xs.length = n) :
    padTo n xs = xs := by
  simp [padTo, h, List.take_append_of_le_length, List.take_length]

theorem take_two_set (l : List Nat) (a b : Nat) (h : 2 ≤ l.length) :
    ((l.set 0 a).set 1 b).take 2 = [a, b] := by
  match l with
  | x :: y :: tl => simp [List.set]
  | [] => simp at h
  | [x] => simp at h

theorem rsaRecvFinish_res (o : Oracles) (conn : Conn) (ev : List Event) :
    (rsaRecvFinish o conn ev).res = .error .prfFailed ∨
    (rsaRecvFinish o conn ev).res = .ok () := by
  unfold rsaRecvFinish
  cases o.prf_master_secret conn.rsa_premaster_secret <;> simp

theorem rsaRecvDecrypt_res (o : Oracles) (conn : Conn) (in₁ : List Nat)
    (ev₁ : List Event) :
    (rsaRecvDecrypt o conn in₁ ev₁).res = .error .randomFailed ∨
    (rsaRecvDecrypt o conn in₁ ev₁).res = .error .prfFailed ∨
    (rsaRecvDecrypt o conn in₁ ev₁).res = .ok () := by
  unfold rsaRecvDecrypt
  dsimp only
  split
  · cases o.get_random_data S2N_TLS_SECRET_LEN with
    | none => simp
    | some r =>
      dsimp only
      exact Or.inr (rsaRecvFinish_res o _ _)
  · exact Or.inr (rsaRecvFinish_res o _ _)

theorem rsaRecvParse_error {conn : Conn} {in_ : List Nat} {e : KexError}
    (h : rsaRecvParse conn in_ = .error e) : e = .stufferOutOfData := by
  unfold rsaRecvParse at h
  split at h
  · exact absurd h (by simp)
  · cases hr : s2n_stuffer_read_uint16 in_ with
    | none => rw [hr] at h; cases h; rfl
    | some v => rw [hr] at h; cases h

/-! ## Concrete fixtures for witnesses -/

/-- A well-behaved collaborator instantiation used by witnesses. -/
def defaultOracles : Oracles where
  rsa_decrypt := fun ct => (0, ct)
  rsa_encrypt := fun pms => some pms
  rsa_public_encrypted_size := 48
  get_random_data := fun n => some (List.replicate n 7)
  prf_master_secret := fun s => some s
  dh_compute_shared_secret_as_server := fun yc => some yc
  dh_compute_shared_secret_as_client := some ([1, 2], [3, 4])

/-- A connection negotiated at SSLv3. -/
def sslv3Conn : Conn where
  actual_protocol_version := 30
  client_protocol_version := 30
  rsa_premaster_secret := List.replicate 48 0
  rsa_failed := false
  master_secret := none
  next_state := .clientKeyExchange
  dh_params_freed := false
  rsa_public_key_freed := false
  key_exchange_alg := 0

/-- A connection negotiated at TLS 1.0 (version 31). -/
def tlsConn : Conn where
  actual_protocol_version := 31
  client_protocol_version := 31
  rsa_premaster_secret := List.replicate 48 0
  rsa_failed := false
  master_secret := none
  next_state := .clientKeyExchange
  dh_params_freed := false
  rsa_public_key_freed := false
  key_exchange_alg := 0

/-! ## Claims -/

/-- C10: when the negotiated protocol version is SSLv3, the server-side
RSA receive path can never fail with BadMessage: the blob length is
defined as exactly the bytes available, so the length-bound error branch
is unreachable for any input message. -/
theorem rsa_recv_sslv3_no_bad_message (o : Oracles) (conn : Conn) (in_ : List Nat)
    (hv : conn.actual_protocol_version = S2N_SSLv3) :
    (s2n_rsa_client_key_recv o conn in_).res ≠ Except.error KexError.badMessage := by
  unfold s2n_rsa_client_key_recv rsaRecvParse
  rw [if_pos hv]
  dsimp only
  rw [if_neg (lt_irrefl _)]
  unfold s2n_stuffer_raw_read s2n_stuffer_data_available
  rw [if_pos (le_refl _)]
  rcases rsaRecvDecrypt_res o conn in_ [] with h | h | h <;> simp [h]

theorem rsa_recv_sslv3_no_bad_message_witness :
    sslv3Conn.actual_protocol_version = S2N_SSLv3 ∧
    (s2n_rsa_client_key_recv defaultOracles sslv3Conn [1, 2, 3]).res ≠
      Except.error KexError.badMessage :=
  ⟨by decide, rsa_recv_sslv3_no_bad_message defaultOracles sslv3Conn [1, 2, 3] (by decide)⟩

/-- C9: in the server-side RSA receive path, once the length-bound check
has passed, the raw read of the declared number of bytes always succeeds,
so the unchecked pointer handed to RSA decryption is never null (the
null-pointer outcome of the raw read is unreachable on every input). -/
theorem rsa_recv_decrypt_pointer_never_null (o : Oracles) (conn : Conn)
    (in_ : List Nat) :
    (s2n_rsa_client_key_recv o conn in_).res ≠ Except.error KexError.nullData := by
  unfold s2n_rsa_client_key_recv
  cases hp : rsaRecvParse conn in_ with
  | error e =>
    have he := rsaRecvParse_error hp
    subst he
    simp
  | ok v =>
    obtain ⟨len, in₁, ev⟩ := v
    dsimp only
    by_cases hlen : len > s2n_stuffer_data_available in₁
    · rw [if_pos hlen]; simp
    · rw [if_neg hlen]
      have hle : len ≤ in₁.length := Nat.not_lt.mp hlen
      unfold s2n_stuffer_raw_read
      rw [if_pos hle]
      rcases rsaRecvDecrypt_res o conn in₁ ev with h | h | h <;> simp [h]

/-- C4: in the server-side RSA receive path, if the declared
encrypted-blob length exceeds the bytes actually available, the routine
fails with BadMessage and performs no secret processing: the connection
is returned unchanged (no pre-master secret write, no master-secret
derivation, no state transition) and the trace holds only the
length-prefix read — in particular the result does not depend on any
collaborator oracle, so no decryption call occurs. -/
theorem rsa_recv_oversized_length_bad_message (o : Oracles) (conn : Conn)
    (b1 b2 : Nat) (rest : List Nat)
    (hv : conn.actual_protocol_version ≠ S2N_SSLv3)
    (hlen : rest.length < b1 * 256 + b2) :
    s2n_rsa_client_key_recv o conn (b1 :: b2 :: rest) =
      ⟨Except.error KexError.badMessage, conn, [], [Event.readLen16 (b1 * 256 + b2)]⟩ := by
  unfold s2n_rsa_client_key_recv rsaRecvParse s2n_stuffer_read_uint16
  rw [if_neg hv]
  dsimp only
  unfold s2n_stuffer_data_available
  rw [if_pos hlen]

theorem rsa_recv_oversized_length_bad_message_witness :
    tlsConn.actual_protocol_version ≠ S2N_SSLv3 ∧
    ([] : List Nat).length < 1 * 256 + 0 ∧
    s2n_rsa_client_key_recv defaultOracles tlsConn [1, 0] =
      ⟨Except.error KexError.badMessage, tlsConn, [], [Event.readLen16 (1 * 256 + 0)]⟩ :=
  ⟨by decide, by decide,
    rsa_recv_oversized_length_bad_message defaultOracles tlsConn 1 0 [] (by decide)
      (by decide)⟩

/-- Oracles whose decryption succeeds with a fixed 48-byte plaintext
that does not start with the wire version bytes of tlsConn. -/
def blobSizeOracles : Oracles where
  rsa_decrypt := fun _ => (0, List.replicate 48 9)
  rsa_encrypt := fun pms => some pms
  rsa_public_encrypted_size := 48
  get_random_data := fun n => some (List.replicate n 7)
  prf_master_secret := fun s => some s
  dh_compute_shared_secret_as_server := fun yc => some yc
  dh_compute_shared_secret_as_client := some ([1, 2], [3, 4])

/-- C2 (code bug): on the TLS receive path with declared length 10 but
12 bytes remaining after the prefix, the blob handed to RSA decryption
is the 12 remaining bytes, not the declared 10 — line 56 sets the blob
size to s2n_stuffer_data_available(in) instead of length, although
line 57 advances the cursor by exactly length bytes. -/
theorem rsa_recv_blob_size_not_declared_length :
    Event.readLen16 10 ∈
      (s2n_rsa_client_key_recv blobSizeOracles tlsConn
        (0 :: 10 :: List.replicate 12 7)).trace ∧
    Event.rsaDecrypt (List.replicate 12 7) ∈
      (s2n_rsa_client_key_recv blobSizeOracles tlsConn
        (0 :: 10 :: List.replicate 12 7)).trace ∧
    (List.replicate 12 7 : List Nat).length ≠ 10 := by decide

/-- Oracles whose RSA decryption succeeds with the expected version
bytes (3, 1) but whose master-secret derivation fails. -/
def prfFailOracles : Oracles where
  rsa_decrypt := fun _ => (0, 3 :: 1 :: List.replicate 46 9)
  rsa_encrypt := fun pms => some pms
  rsa_public_encrypted_size := 48
  get_random_data := fun n => some (List.replicate n 7)
  prf_master_secret := fun _ => none
  dh_compute_shared_secret_as_server := fun yc => some yc
  dh_compute_shared_secret_as_client := some ([1, 2], [3, 4])

/-- Oracles whose RSA encryption fails. -/
def encFailOracles : Oracles :=
  { defaultOracles with rsa_encrypt := fun _ => none }

/-- C3 (code bug): on the RSA receive path, when master-secret
derivation fails after the 48-byte pre-master secret has been populated,
the routine propagates the error without zeroing the buffer, which still
holds the decrypted secret; likewise on the send path an encryption
failure exits with the freshly built secret left in the buffer. -/
theorem rsa_secret_not_zeroed_on_propagated_error :
    ((s2n_rsa_client_key_recv prfFailOracles tlsConn
        (0 :: 48 :: List.replicate 48 2)).res = Except.error KexError.prfFailed ∧
      (s2n_rsa_client_key_recv prfFailOracles tlsConn
        (0 :: 48 :: List.replicate 48 2)).conn.rsa_premaster_secret
          = 3 :: 1 :: List.replicate 46 9 ∧
      (s2n_rsa_client_key_recv prfFailOracles tlsConn
        (0 :: 48 :: List.replicate 48 2)).conn.rsa_premaster_secret
          ≠ List.replicate 48 0) ∧
    ((s2n_rsa_client_key_send encFailOracles tlsConn []).res
        = Except.error KexError.encryptFailed ∧
      (s2n_rsa_client_key_send encFailOracles tlsConn []).conn.rsa_premaster_secret
          ≠ List.replicate 48 0) := by decide

theorem constant_time_equals_cpv (conn : Conn) (b : List Nat) (hb : 2 ≤ b.length) :
    s2n_constant_time_equals (cpvBytes conn) b S2N_TLS_PROTOCOL_VERSION_LEN = true ↔
      b.take 2 = cpvBytes conn := by
  obtain ⟨b0, b1, tl, rfl⟩ : ∃ b0 b1 tl, b = b0 :: b1 :: tl := by
    match b with
    | b0 :: b1 :: tl => exact ⟨b0, b1, tl, rfl⟩
    | [] => simp at hb
    | [x] => simp at hb
  rw [cpvBytes, S2N_TLS_PROTOCOL_VERSION_LEN, constant_time_equals_two]
  simp [cpvBytes]

/-- C1: in the server-side RSA receive path, whenever RSA decryption
reports failure or the first two decrypted bytes differ from the
reconstructed client protocol version, the routine substitutes a fresh
random 48-byte secret whose first two bytes are the reconstructed client
version, and then completes exactly like the success case: it returns
the success value, derives the master secret (from the substituted
secret), zeroes the secret buffer and sets the next state to
CLIENT_CHANGE_CIPHER_SPEC — no distinct error is raised on this branch. -/
theorem rsa_recv_substitution_completes_like_success
    (o : Oracles) (conn : Conn) (in_ : List Nat)
    (len : Nat) (in₁ : List Nat) (ev₁ : List Event)
    (rc : Int) (dec r ms : List Nat)
    (hparse : rsaRecvParse conn in_ = .ok (len, in₁, ev₁))
    (hlen : len ≤ in₁.length)
    (hdec : o.rsa_decrypt in₁ = (rc, dec))
    (hfail : rc ≠ 0 ∨ (padTo S2N_TLS_SECRET_LEN dec).take 2 ≠ cpvBytes conn)
    (hrand : o.get_random_data S2N_TLS_SECRET_LEN = some r)
    (hprf : o.prf_master_secret (rsaSubstituteSecret conn r) = some ms) :
    (s2n_rsa_client_key_recv o conn in_).res = .ok () ∧
    (s2n_rsa_client_key_recv o conn in_).conn.master_secret = some ms ∧
    (s2n_rsa_client_key_recv o conn in_).conn.rsa_premaster_secret =
      List.replicate S2N_TLS_SECRET_LEN 0 ∧
    (s2n_rsa_client_key_recv o conn in_).conn.next_state =
      HsState.clientChangeCipherSpec := by
  have hnl : ¬ len > s2n_stuffer_data_available in₁ := Nat.not_lt.mpr hlen
  have hpad : 2 ≤ (padTo S2N_TLS_SECRET_LEN dec).length := by
    rw [padTo_length]; norm_num [S2N_TLS_SECRET_LEN]
  have hfailed : (!(rc == 0) ||
      !(s2n_constant_time_equals (cpvBytes conn) (padTo S2N_TLS_SECRET_LEN dec)
        S2N_TLS_PROTOCOL_VERSION_LEN)) = true := by
    rcases hfail with h | h
    · simp [h]
    · have hne : s2n_constant_time_equals (cpvBytes conn)
          (padTo S2N_TLS_SECRET_LEN dec) S2N_TLS_PROTOCOL_VERSION_LEN = false := by
        rcases Bool.eq_false_or_eq_true (s2n_constant_time_equals (cpvBytes conn)
          (padTo S2N_TLS_SECRET_LEN dec) S2N_TLS_PROTOCOL_VERSION_LEN) with hf | ht
        · exact absurd ((constant_time_equals_cpv conn _ hpad).mp hf) h
        · exact ht
      simp [hne]
  unfold s2n_rsa_client_key_recv
  rw [hparse]
  dsimp only
  rw [if_neg hnl]
  unfold s2n_stuffer_raw_read
  rw [if_pos hlen]
  unfold rsaRecvDecrypt
  dsimp only
  simp only [s2n_stuffer_data_available, List.take_length, hdec]
  simp only [hfailed]
  rw [if_pos trivial]
  rw [hrand]
  dsimp only
  unfold rsaRecvFinish
  dsimp only
  rw [hprf]
  exact ⟨rfl, rfl, rfl, rfl⟩

/-- Oracles whose RSA decryption reports failure. -/
def decFailOracles : Oracles where
  rsa_decrypt := fun _ => (-1, List.replicate 48 0)
  rsa_encrypt := fun pms => some pms
  rsa_public_encrypted_size := 48
  get_random_data := fun n => some (List.replicate n 7)
  prf_master_secret := fun s => some s
  dh_compute_shared_secret_as_server := fun yc => some yc
  dh_compute_shared_secret_as_client := some ([1, 2], [3, 4])

theorem rsa_recv_substitution_completes_like_success_witness :
    rsaRecvParse tlsConn (0 :: 48 :: List.replicate 48 2) =
      .ok (48, List.replicate 48 2, [Event.readLen16 48]) ∧
    48 ≤ (List.replicate 48 2 : List Nat).length ∧
    decFailOracles.rsa_decrypt (List.replicate 48 2) = (-1, List.replicate 48 0) ∧
    ((-1 : Int) ≠ 0 ∨
      (padTo S2N_TLS_SECRET_LEN (List.replicate 48 0)).take 2 ≠ cpvBytes tlsConn) ∧
    decFailOracles.get_random_data S2N_TLS_SECRET_LEN =
      some (List.replicate 48 7) ∧
    decFailOracles.prf_master_secret
        (rsaSubstituteSecret tlsConn (List.replicate 48 7)) =
      some (rsaSubstituteSecret tlsConn (List.replicate 48 7)) ∧
    ((s2n_rsa_client_key_recv decFailOracles tlsConn
        (0 :: 48 :: List.replicate 48 2)).res = .ok () ∧
      (s2n_rsa_client_key_recv decFailOracles tlsConn
        (0 :: 48 :: List.replicate 48 2)).conn.master_secret =
          some (rsaSubstituteSecret tlsConn (List.replicate 48 7)) ∧
      (s2n_rsa_client_key_recv decFailOracles tlsConn
        (0 :: 48 :: List.replicate 48 2)).conn.rsa_premaster_secret =
          List.replicate S2N_TLS_SECRET_LEN 0 ∧
      (s2n_rsa_client_key_recv decFailOracles tlsConn
        (0 :: 48 :: List.replicate 48 2)).conn.next_state =
          HsState.clientChangeCipherSpec) :=
  ⟨rfl, by decide, rfl, Or.inl (by decide), rfl, rfl,
    rsa_recv_substitution_completes_like_success decFailOracles tlsConn
      (0 :: 48 :: List.replicate 48 2) 48 (List.replicate 48 2)
      [Event.readLen16 48] (-1) (List.replicate 48 0) (List.replicate 48 7)
      (rsaSubstituteSecret tlsConn (List.replicate 48 7))
      rfl (by decide) rfl (Or.inl (by decide)) rfl rfl⟩

/-- C7: the client-side RSA send path fails with SizeMismatch exactly
when the computed ciphertext size for the public key is negative or
exceeds 65535; for any size in [0, 65535] it reserves and encrypts into
a region of exactly that many bytes after the (version-conditional)
length prefix. -/
theorem rsa_send_size_mismatch_iff (o : Oracles) (conn : Conn) (out r : List Nat)
    (hrand : o.get_random_data (S2N_TLS_SECRET_LEN - S2N_TLS_PROTOCOL_VERSION_LEN)
      = some r) :
    ((s2n_rsa_client_key_send o conn out).res = Except.error KexError.sizeMismatch ↔
      (o.rsa_public_encrypted_size < 0 ∨ o.rsa_public_encrypted_size > 65535)) ∧
    (¬ (o.rsa_public_encrypted_size < 0 ∨ o.rsa_public_encrypted_size > 65535) →
      ∃ region : List Nat,
        (s2n_rsa_client_key_send o conn out).out =
          (if conn.actual_protocol_version > S2N_SSLv3 then
            s2n_stuffer_write_uint16 out o.rsa_public_encrypted_size.toNat
          else out) ++ region ∧
        region.length = o.rsa_public_encrypted_size.toNat ∧
        Event.rsaEncrypt ∈ (s2n_rsa_client_key_send o conn out).trace) := by
  unfold s2n_rsa_client_key_send
  rw [hrand]
  dsimp only
  by_cases hsz : o.rsa_public_encrypted_size < 0 ∨ o.rsa_public_encrypted_size > 65535
  · rw [if_pos hsz]
    exact ⟨⟨fun _ => hsz, fun _ => rfl⟩, fun hn => absurd hsz hn⟩
  · rw [if_neg hsz]
    constructor
    · constructor
      · intro hres
        exfalso
        revert hres
        split
        · dsimp only; intro hres; simp at hres
        · split <;> (dsimp only; intro hres; simp at hres)
      · intro h
        exact absurd h hsz
    · intro _
      split
      · refine ⟨List.replicate o.rsa_public_encrypted_size.toNat 0, rfl, by simp, ?_⟩
        simp
      · rename_i ct hct
        split
        · refine ⟨padTo o.rsa_public_encrypted_size.toNat ct, rfl,
            padTo_length _ _, ?_⟩
          simp
        · refine ⟨padTo o.rsa_public_encrypted_size.toNat ct, rfl,
            padTo_length _ _, ?_⟩
          simp

theorem rsa_send_size_mismatch_iff_witness :
    defaultOracles.get_random_data
        (S2N_TLS_SECRET_LEN - S2N_TLS_PROTOCOL_VERSION_LEN)
      = some (List.replicate 46 7) ∧
    (((s2n_rsa_client_key_send defaultOracles tlsConn []).res =
        Except.error KexError.sizeMismatch ↔
      (defaultOracles.rsa_public_encrypted_size < 0 ∨
        defaultOracles.rsa_public_encrypted_size > 65535)) ∧
    (¬ (defaultOracles.rsa_public_encrypted_size < 0 ∨
        defaultOracles.rsa_public_encrypted_size > 65535) →
      ∃ region : List Nat,
        (s2n_rsa_client_key_send defaultOracles tlsConn []).out =
          (if tlsConn.actual_protocol_version > S2N_SSLv3 then
            s2n_stuffer_write_uint16 []
              defaultOracles.rsa_public_encrypted_size.toNat
          else []) ++ region ∧
        region.length = defaultOracles.rsa_public_encrypted_size.toNat ∧
        Event.rsaEncrypt ∈
          (s2n_rsa_client_key_send defaultOracles tlsConn []).trace)) :=
  ⟨rfl, rsa_send_size_mismatch_iff defaultOracles tlsConn [] (List.replicate 46 7) rfl⟩

/-- C8: in both DHE routines, once the master secret has been derived
from the shared secret, the ephemeral DH parameters are freed exactly
once per invocation (the trace splits around a single freeDhParams
action) and the free happens after the derivation. -/
theorem dhe_params_freed_once_after_derive
    (o : Oracles) (conn : Conn) (in_ out : List Nat)
    (len : Nat) (rest Yc rest2 shared ms pub sharedC msC : List Nat)
    (h1 : s2n_stuffer_read_uint16 in_ = some (len, rest))
    (h2 : s2n_stuffer_raw_read rest len = some (Yc, rest2))
    (h3 : o.dh_compute_shared_secret_as_server Yc = some shared)
    (h4 : o.prf_master_secret shared = some ms)
    (h5 : o.dh_compute_shared_secret_as_client = some (pub, sharedC))
    (h6 : o.prf_master_secret sharedC = some msC) :
    (∃ pre post, (s2n_dhe_client_key_recv o conn in_).trace =
        pre ++ Event.freeDhParams :: post ∧
      Event.deriveMasterSecret shared ∈ pre ∧
      Event.freeDhParams ∉ pre ∧ Event.freeDhParams ∉ post) ∧
    (∃ pre post, (s2n_dhe_client_key_send o conn out).trace =
        pre ++ Event.freeDhParams :: post ∧
      Event.deriveMasterSecret sharedC ∈ pre ∧
      Event.freeDhParams ∉ pre ∧ Event.freeDhParams ∉ post) := by
  constructor
  · unfold s2n_dhe_client_key_recv
    rw [h1]
    dsimp only
    rw [h2]
    dsimp only
    rw [h3]
    dsimp only
    rw [h4]
    exact ⟨[Event.readLen16 len, Event.dhComputeShared,
        Event.deriveMasterSecret shared, Event.zeroSecret,
        Event.freeSharedSecret], [], rfl, by simp, by simp, by simp⟩
  · unfold s2n_dhe_client_key_send
    rw [h5]
    dsimp only
    rw [h6]
    exact ⟨[Event.dhComputeShared, Event.deriveMasterSecret sharedC,
        Event.zeroSecret, Event.freeSharedSecret], [], rfl, by simp, by simp,
      by simp⟩

theorem dhe_params_freed_once_after_derive_witness :
    s2n_stuffer_read_uint16 [0, 2, 9, 9] = some (2, [9, 9]) ∧
    s2n_stuffer_raw_read [9, 9] 2 = some ([9, 9], []) ∧
    defaultOracles.dh_compute_shared_secret_as_server [9, 9] = some [9, 9] ∧
    defaultOracles.prf_master_secret [9, 9] = some [9, 9] ∧
    defaultOracles.dh_compute_shared_secret_as_client = some ([1, 2], [3, 4]) ∧
    defaultOracles.prf_master_secret [3, 4] = some [3, 4] ∧
    ((∃ pre post, (s2n_dhe_client_key_recv defaultOracles tlsConn
          [0, 2, 9, 9]).trace = pre ++ Event.freeDhParams :: post ∧
        Event.deriveMasterSecret [9, 9] ∈ pre ∧
        Event.freeDhParams ∉ pre ∧ Event.freeDhParams ∉ post) ∧
      (∃ pre post, (s2n_dhe_client_key_send defaultOracles tlsConn []).trace =
          pre ++ Event.freeDhParams :: post ∧
        Event.deriveMasterSecret [3, 4] ∈ pre ∧
        Event.freeDhParams ∉ pre ∧ Event.freeDhParams ∉ post)) :=
  ⟨rfl, rfl, rfl, rfl, rfl, rfl,
    dhe_params_freed_once_after_derive defaultOracles tlsConn [0, 2, 9, 9] []
      2 [9, 9] [9, 9] [] [9, 9] [9, 9] [1, 2] [3, 4] [3, 4]
      rfl rfl rfl rfl rfl rfl⟩

theorem rsaRecvFinish_trace (o : Oracles) (conn : Conn) (ev : List Event) :
    ∃ tl, (rsaRecvFinish o conn ev).trace = ev ++ tl ∧
      ∀ n, Event.readLen16 n ∉ tl := by
  unfold rsaRecvFinish
  cases o.prf_master_secret conn.rsa_premaster_secret with
  | none => exact ⟨[], by simp, by simp⟩
  | some ms =>
    exact ⟨[.deriveMasterSecret conn.rsa_premaster_secret, .zeroSecret], rfl,
      by simp⟩

theorem rsaRecvDecrypt_trace_extends (o : Oracles) (conn : Conn)
    (in₁ : List Nat) (ev₁ : List Event) :
    ∃ tl, (rsaRecvDecrypt o conn in₁ ev₁).trace = ev₁ ++ tl ∧
      ∀ n, Event.readLen16 n ∉ tl := by
  unfold rsaRecvDecrypt
  dsimp only
  split
  next hfail =>
    rw [hfail]
    cases o.get_random_data S2N_TLS_SECRET_LEN with
    | none =>
      exact ⟨[Event.rsaDecrypt (in₁.take (s2n_stuffer_data_available in₁))],
        rfl, by simp⟩
    | some r =>
      dsimp only
      obtain ⟨tl, htl, hno⟩ := rsaRecvFinish_trace o
        { conn with
            rsa_premaster_secret := rsaSubstituteSecret conn r,
            rsa_failed := true }
        (ev₁ ++ [Event.rsaDecrypt (in₁.take (s2n_stuffer_data_available in₁))]
          ++ [Event.substituteSecret])
      refine ⟨[Event.rsaDecrypt (in₁.take (s2n_stuffer_data_available in₁)),
        Event.substituteSecret] ++ tl, ?_, ?_⟩
      · rw [htl]
        simp
      · intro n
        simp [hno n]
  next hfail =>
    rw [Bool.not_eq_true] at hfail
    rw [hfail]
    obtain ⟨tl, htl, hno⟩ := rsaRecvFinish_trace o
      { conn with
          rsa_premaster_secret :=
            padTo S2N_TLS_SECRET_LEN
              (o.rsa_decrypt (in₁.take (s2n_stuffer_data_available in₁))).2,
          rsa_failed := false }
      (ev₁ ++ [Event.rsaDecrypt (in₁.take (s2n_stuffer_data_available in₁))])
    refine ⟨[Event.rsaDecrypt (in₁.take (s2n_stuffer_data_available in₁))] ++ tl,
      ?_, ?_⟩
    · rw [htl]
      simp
    · intro n
      simp [hno n]

/-- C6: both RSA paths follow the version-conditional length-prefix
rule: the send path writes a big-endian 16-bit length prefix equal to
the ciphertext size if and only if the negotiated protocol version is
later than SSLv3, and the receive path reads such a prefix if and only
if the version is later than SSLv3 — at SSLv3 the declared length is
implicitly all bytes available. -/
theorem rsa_length_header_version_rule
    (o : Oracles) (conn : Conn) (out in_ r : List Nat)
    (hv : S2N_SSLv3 ≤ conn.actual_protocol_version)
    (hin : 2 ≤ in_.length)
    (hrand : o.get_random_data (S2N_TLS_SECRET_LEN - S2N_TLS_PROTOCOL_VERSION_LEN)
      = some r)
    (hlo : 0 ≤ o.rsa_public_encrypted_size)
    (hhi : o.rsa_public_encrypted_size ≤ 65535) :
    (Event.writeLen16 o.rsa_public_encrypted_size.toNat ∈
        (s2n_rsa_client_key_send o conn out).trace ↔
      S2N_SSLv3 < conn.actual_protocol_version) ∧
    ((∃ n, Event.readLen16 n ∈ (s2n_rsa_client_key_recv o conn in_).trace) ↔
      S2N_SSLv3 < conn.actual_protocol_version) ∧
    (conn.actual_protocol_version = S2N_SSLv3 →
      rsaRecvParse conn in_ =
        .ok (s2n_stuffer_data_available in_, in_, [])) := by
  have hsz : ¬ (o.rsa_public_encrypted_size < 0 ∨
      o.rsa_public_encrypted_size > 65535) := by
    simp only [not_or, not_lt]
    exact ⟨hlo, hhi⟩
  refine ⟨?_, ?_, ?_⟩
  · unfold s2n_rsa_client_key_send
    rw [hrand]
    dsimp only
    rw [if_neg hsz]
    by_cases hgt : S2N_SSLv3 < conn.actual_protocol_version
    · simp only [if_pos hgt]
      apply iff_of_true _ hgt
      split
      · simp
      · split <;> simp
    · simp only [if_neg hgt]
      apply iff_of_false _ hgt
      split
      · simp
      · split <;> simp
  · by_cases hgt : S2N_SSLv3 < conn.actual_protocol_version
    · apply iff_of_true _ hgt
      obtain ⟨b1, b2, rest, rfl⟩ : ∃ b1 b2 rest, in_ = b1 :: b2 :: rest := by
        match in_, hin with
        | b1 :: b2 :: rest, _ => exact ⟨b1, b2, rest, rfl⟩
      have hvne : conn.actual_protocol_version ≠ S2N_SSLv3 := by omega
      refine ⟨b1 * 256 + b2, ?_⟩
      unfold s2n_rsa_client_key_recv rsaRecvParse s2n_stuffer_read_uint16
      rw [if_neg hvne]
      dsimp only
      by_cases hlen : b1 * 256 + b2 > s2n_stuffer_data_available rest
      · rw [if_pos hlen]
        simp
      · rw [if_neg hlen]
        have hle : b1 * 256 + b2 ≤ rest.length := Nat.not_lt.mp hlen
        unfold s2n_stuffer_raw_read
        rw [if_pos hle]
        obtain ⟨tl, htl, -⟩ := rsaRecvDecrypt_trace_extends o conn rest
          [Event.readLen16 (b1 * 256 + b2)]
        rw [htl]
        simp
    · have hveq : conn.actual_protocol_version = S2N_SSLv3 :=
        le_antisymm (Nat.not_lt.mp hgt) hv
      apply iff_of_false _ hgt
      rintro ⟨n, hn⟩
      revert hn
      unfold s2n_rsa_client_key_recv rsaRecvParse
      rw [if_pos hveq]
      dsimp only
      rw [if_neg (lt_irrefl _)]
      unfold s2n_stuffer_raw_read s2n_stuffer_data_available
      rw [if_pos (le_refl _)]
      obtain ⟨tl, htl, hno⟩ := rsaRecvDecrypt_trace_extends o conn in_ []
      rw [htl]
      intro hn
      exact hno n (by simpa using hn)
  · intro hveq
    unfold rsaRecvParse
    rw [if_pos hveq]

theorem rsa_length_header_version_rule_witness :
    S2N_SSLv3 ≤ tlsConn.actual_protocol_version ∧
    2 ≤ ([0, 1, 5] : List Nat).length ∧
    defaultOracles.get_random_data
        (S2N_TLS_SECRET_LEN - S2N_TLS_PROTOCOL_VERSION_LEN)
      = some (List.replicate 46 7) ∧
    0 ≤ defaultOracles.rsa_public_encrypted_size ∧
    defaultOracles.rsa_public_encrypted_size ≤ 65535 ∧
    ((Event.writeLen16 defaultOracles.rsa_public_encrypted_size.toNat ∈
        (s2n_rsa_client_key_send defaultOracles tlsConn []).trace ↔
      S2N_SSLv3 < tlsConn.actual_protocol_version) ∧
    ((∃ n, Event.readLen16 n ∈
        (s2n_rsa_client_key_recv defaultOracles tlsConn [0, 1, 5]).trace) ↔
      S2N_SSLv3 < tlsConn.actual_protocol_version) ∧
    (tlsConn.actual_protocol_version = S2N_SSLv3 →
      rsaRecvParse tlsConn [0, 1, 5] =
        .ok (s2n_stuffer_data_available [0, 1, 5], [0, 1, 5], []))) :=
  ⟨by decide, by decide, rfl, by decide, by decide,
    rsa_length_header_version_rule defaultOracles tlsConn [] [0, 1, 5]
      (List.replicate 46 7) (by decide) (by decide) rfl (by decide) (by decide)⟩

theorem rsaRecvDecrypt_success (o : Oracles) (conn : Conn) (in₁ : List Nat)
    (ev₁ : List Event) (pms ms : List Nat)
    (hdec : o.rsa_decrypt in₁ = (0, pms))
    (hlen48 : pms.length = S2N_TLS_SECRET_LEN)
    (hcpv : pms.take 2 = cpvBytes conn)
    (hprf : o.prf_master_secret pms = some ms) :
    (rsaRecvDecrypt o conn in₁ ev₁).res = .ok () ∧
    (rsaRecvDecrypt o conn in₁ ev₁).conn.master_secret = some ms ∧
    (rsaRecvDecrypt o conn in₁ ev₁).conn.rsa_premaster_secret =
      List.replicate S2N_TLS_SECRET_LEN 0 ∧
    (rsaRecvDecrypt o conn in₁ ev₁).conn.next_state =
      HsState.clientChangeCipherSpec := by
  have hctb : s2n_constant_time_equals (cpvBytes conn) pms
      S2N_TLS_PROTOCOL_VERSION_LEN = true :=
    (constant_time_equals_cpv conn pms
      (by rw [hlen48]; norm_num [S2N_TLS_SECRET_LEN])).mpr hcpv
  unfold rsaRecvDecrypt
  dsimp only
  simp only [s2n_stuffer_data_available, List.take_length, hdec]
  simp only [padTo_eq_self hlen48, hctb]
  rw [if_neg (by decide)]
  unfold rsaRecvFinish
  dsimp only
  rw [hprf]
  exact ⟨rfl, rfl, rfl, rfl⟩

theorem rsa_send_success (o : Oracles) (conn : Conn) (out r ct ms : List Nat)
    (hrand : o.get_random_data
      (S2N_TLS_SECRET_LEN - S2N_TLS_PROTOCOL_VERSION_LEN) = some r)
    (hlo : 0 ≤ o.rsa_public_encrypted_size)
    (hhi : o.rsa_public_encrypted_size ≤ 65535)
    (henc : o.rsa_encrypt (conn.client_protocol_version / 10 ::
        conn.client_protocol_version % 10 ::
        padTo (S2N_TLS_SECRET_LEN - S2N_TLS_PROTOCOL_VERSION_LEN) r) = some ct)
    (hct : ct.length = o.rsa_public_encrypted_size.toNat)
    (hprf : o.prf_master_secret (conn.client_protocol_version / 10 ::
        conn.client_protocol_version % 10 ::
        padTo (S2N_TLS_SECRET_LEN - S2N_TLS_PROTOCOL_VERSION_LEN) r) = some ms) :
    (s2n_rsa_client_key_send o conn out).res = .ok () ∧
    (s2n_rsa_client_key_send o conn out).out =
      (if S2N_SSLv3 < conn.actual_protocol_version then
        s2n_stuffer_write_uint16 out o.rsa_public_encrypted_size.toNat
      else out) ++ ct := by
  have hsz : ¬ (o.rsa_public_encrypted_size < 0 ∨
      o.rsa_public_encrypted_size > 65535) := by
    simp only [not_or, not_lt]
    exact ⟨hlo, hhi⟩
  unfold s2n_rsa_client_key_send
  rw [hrand]
  dsimp only
  rw [if_neg hsz]
  have hpms : (((padTo S2N_TLS_SECRET_LEN conn.rsa_premaster_secret).set 0
      ((cpvBytes conn).getD 0 0)).set 1 ((cpvBytes conn).getD 1 0)).take
        S2N_TLS_PROTOCOL_VERSION_LEN ++
      padTo (S2N_TLS_SECRET_LEN - S2N_TLS_PROTOCOL_VERSION_LEN) r =
      conn.client_protocol_version / 10 :: conn.client_protocol_version % 10 ::
        padTo (S2N_TLS_SECRET_LEN - S2N_TLS_PROTOCOL_VERSION_LEN) r := by
    have hts := take_two_set (padTo S2N_TLS_SECRET_LEN conn.rsa_premaster_secret)
      ((cpvBytes conn).getD 0 0) ((cpvBytes conn).getD 1 0)
      (by rw [padTo_length]; norm_num [S2N_TLS_SECRET_LEN])
    rw [show S2N_TLS_PROTOCOL_VERSION_LEN = 2 from rfl, hts]
    simp [cpvBytes]
  rw [hpms, henc]
  dsimp only
  rw [hprf]
  refine ⟨rfl, ?_⟩
  rw [padTo_eq_self hct]

/-- C5: round-trip — running the server-side RSA receive path on the
message produced by the client-side RSA send path (same protocol
version at both ends, matching RSA key pair) succeeds and derives the
master secret obtained by deriving directly from the original 48-byte
pre-master secret built on the send side. -/
theorem rsa_roundtrip_master_secret
    (o : Oracles) (connC connS : Conn) (r ct ms : List Nat)
    (hv : connS.actual_protocol_version = connC.actual_protocol_version)
    (hv30 : S2N_SSLv3 ≤ connC.actual_protocol_version)
    (hcv : connS.client_protocol_version = connC.client_protocol_version)
    (hrand : o.get_random_data
      (S2N_TLS_SECRET_LEN - S2N_TLS_PROTOCOL_VERSION_LEN) = some r)
    (hlo : 0 ≤ o.rsa_public_encrypted_size)
    (hhi : o.rsa_public_encrypted_size ≤ 65535)
    (henc : o.rsa_encrypt (connC.client_protocol_version / 10 ::
        connC.client_protocol_version % 10 ::
        padTo (S2N_TLS_SECRET_LEN - S2N_TLS_PROTOCOL_VERSION_LEN) r) = some ct)
    (hct : ct.length = o.rsa_public_encrypted_size.toNat)
    (hdec : o.rsa_decrypt ct = (0, connC.client_protocol_version / 10 ::
        connC.client_protocol_version % 10 ::
        padTo (S2N_TLS_SECRET_LEN - S2N_TLS_PROTOCOL_VERSION_LEN) r))
    (hprf : o.prf_master_secret (connC.client_protocol_version / 10 ::
        connC.client_protocol_version % 10 ::
        padTo (S2N_TLS_SECRET_LEN - S2N_TLS_PROTOCOL_VERSION_LEN) r) = some ms) :
    (s2n_rsa_client_key_send o connC []).res = .ok () ∧
    (s2n_rsa_client_key_recv o connS
        (s2n_rsa_client_key_send o connC []).out).res = .ok () ∧
    (s2n_rsa_client_key_recv o connS
        (s2n_rsa_client_key_send o connC []).out).conn.master_secret =
      o.prf_master_secret (connC.client_protocol_version / 10 ::
        connC.client_protocol_version % 10 ::
        padTo (S2N_TLS_SECRET_LEN - S2N_TLS_PROTOCOL_VERSION_LEN) r) := by
  obtain ⟨hres, hout⟩ :=
    rsa_send_success o connC [] r ct ms hrand hlo hhi henc hct hprf
  refine ⟨hres, ?_⟩
  rw [hout, hprf]
  have hlenpms : (connC.client_protocol_version / 10 ::
      connC.client_protocol_version % 10 ::
      padTo (S2N_TLS_SECRET_LEN - S2N_TLS_PROTOCOL_VERSION_LEN) r).length
        = S2N_TLS_SECRET_LEN := by
    simp [padTo_length, S2N_TLS_SECRET_LEN, S2N_TLS_PROTOCOL_VERSION_LEN]
  have hcpvS : (connC.client_protocol_version / 10 ::
      connC.client_protocol_version % 10 ::
      padTo (S2N_TLS_SECRET_LEN - S2N_TLS_PROTOCOL_VERSION_LEN) r).take 2
        = cpvBytes connS := by
    simp [cpvBytes, hcv]
  by_cases hgt : S2N_SSLv3 < connC.actual_protocol_version
  · rw [if_pos hgt]
    have hvne : connS.actual_protocol_version ≠ S2N_SSLv3 := by omega
    unfold s2n_rsa_client_key_recv rsaRecvParse
    rw [if_neg hvne]
    unfold s2n_stuffer_write_uint16
    rw [List.nil_append, List.cons_append, List.cons_append, List.nil_append]
    unfold s2n_stuffer_read_uint16
    dsimp only
    have harith : o.rsa_public_encrypted_size.toNat / 256 % 256 * 256 +
        o.rsa_public_encrypted_size.toNat % 256 =
          o.rsa_public_encrypted_size.toNat := by
      omega
    rw [harith]
    have hnb : ¬ o.rsa_public_encrypted_size.toNat >
        s2n_stuffer_data_available ct := by
      simp [s2n_stuffer_data_available, hct]
    rw [if_neg hnb]
    unfold s2n_stuffer_raw_read
    rw [if_pos (le_of_eq hct.symm)]
    obtain ⟨h1, h2, h3, h4⟩ := rsaRecvDecrypt_success o connS ct
      [Event.readLen16 o.rsa_public_encrypted_size.toNat]
      (connC.client_protocol_version / 10 ::
        connC.client_protocol_version % 10 ::
        padTo (S2N_TLS_SECRET_LEN - S2N_TLS_PROTOCOL_VERSION_LEN) r) ms
      hdec hlenpms hcpvS hprf
    exact ⟨h1, h2⟩
  · rw [if_neg hgt]
    rw [List.nil_append]
    have hveq : connS.actual_protocol_version = S2N_SSLv3 := by omega
    unfold s2n_rsa_client_key_recv rsaRecvParse
    rw [if_pos hveq]
    dsimp only
    rw [if_neg (lt_irrefl _)]
    unfold s2n_stuffer_raw_read s2n_stuffer_data_available
    rw [if_pos (le_refl _)]
    obtain ⟨h1, h2, h3, h4⟩ := rsaRecvDecrypt_success o connS ct []
      (connC.client_protocol_version / 10 ::
        connC.client_protocol_version % 10 ::
        padTo (S2N_TLS_SECRET_LEN - S2N_TLS_PROTOCOL_VERSION_LEN) r) ms
      hdec hlenpms hcpvS hprf
    exact ⟨h1, h2⟩

/-- The concrete pre-master secret used by the round-trip witness. -/
def rtSecret : List Nat :=
  tlsConn.client_protocol_version / 10 :: tlsConn.client_protocol_version % 10 ::
    padTo (S2N_TLS_SECRET_LEN - S2N_TLS_PROTOCOL_VERSION_LEN)
      (List.replicate 46 7)

theorem rsa_roundtrip_master_secret_witness :
    tlsConn.actual_protocol_version = tlsConn.actual_protocol_version ∧
    S2N_SSLv3 ≤ tlsConn.actual_protocol_version ∧
    tlsConn.client_protocol_version = tlsConn.client_protocol_version ∧
    defaultOracles.get_random_data
        (S2N_TLS_SECRET_LEN - S2N_TLS_PROTOCOL_VERSION_LEN)
      = some (List.replicate 46 7) ∧
    0 ≤ defaultOracles.rsa_public_encrypted_size ∧
    defaultOracles.rsa_public_encrypted_size ≤ 65535 ∧
    defaultOracles.rsa_encrypt rtSecret = some rtSecret ∧
    rtSecret.length = defaultOracles.rsa_public_encrypted_size.toNat ∧
    defaultOracles.rsa_decrypt rtSecret = (0, rtSecret) ∧
    defaultOracles.prf_master_secret rtSecret = some rtSecret ∧
    ((s2n_rsa_client_key_send defaultOracles tlsConn []).res = .ok () ∧
      (s2n_rsa_client_key_recv defaultOracles tlsConn
          (s2n_rsa_client_key_send defaultOracles tlsConn []).out).res =
        .ok () ∧
      (s2n_rsa_client_key_recv defaultOracles tlsConn
          (s2n_rsa_client_key_send defaultOracles tlsConn []).out).conn.master_secret
        = defaultOracles.prf_master_secret rtSecret) :=
  ⟨rfl, by decide, rfl, rfl, by decide, by decide, rfl, by decide, rfl, rfl,
    rsa_roundtrip_master_secret defaultOracles tlsConn tlsConn
      (List.replicate 46 7) rtSecret rtSecret
      rfl (by decide) rfl rfl (by decide) (by decide) rfl (by decide) rfl rfl⟩
